import Mathlib

/-! The wrapsocket example server: embedding and verified properties.

The Go program `example/main.go` wires an HTTP server to the `wrapsocket`
connection-handling library.  The code of `main.go` is embedded as explicit
state passing over a model of `net/http` response writers; the library itself
(`Manager`, `Conn`, heartbeat monitor) is not part of the source tree and is
modelled from the specification where a property needs it.
-/

set_option maxRecDepth 8000

namespace Wrapsocket

/-! ## Go values used by the example -/

/-- Go `error` value: `none` is `nil`, `some s` is an error whose `Error()` text is `s`. -/
abbrev GoError := Option String

/-- Message type tag of `github.com/coder/websocket`. -/
inductive MessageType where
  | MessageText
  | MessageBinary
  deriving DecidableEq, Repr

/-- Conversion `[]byte(s)`: the UTF-8 bytes of the string. -/
def bytes (s : String) : List UInt8 := s.toUTF8.data.toList

/-- A `context.Context`, reduced to what `ctx.Err()` reports. -/
structure Context where
  Err : GoError
  deriving DecidableEq, Repr

/-- An `*http.Request`: method, `r.URL.Path`, the parsed query `r.URL.Query()` as
key/value pairs in order of appearance, and `r.Context()`. -/
structure Request where
  Method : String
  Path : String
  Query : List (String × String)
  Ctx : Context
  deriving DecidableEq, Repr

/-- Method `url.Values.Get`: the first value stored under `key`, or the empty string. -/
def Values.Get (v : List (String × String)) (key : String) : String :=
  match v.find? (fun p => p.1 = key) with
  | some p => p.2
  | none => ""

/-! ## `net/http` response writer -/

/-- An `http.ResponseWriter`: the header map, the status line once written, and the
body written so far. -/
structure ResponseWriter where
  header : List (String × String)
  status : Option Nat
  body : String
  deriving DecidableEq, Repr

/-- A fresh response writer, as the server hands it to the outermost handler. -/
def ResponseWriter.fresh : ResponseWriter := ⟨[], none, ""⟩

/-- Method `Header.Set`: replaces whatever is stored under `k` by the single value `v`.
The keys the example uses are already in canonical MIME form. -/
def Header.Set (h : List (String × String)) (k v : String) : List (String × String) :=
  h.filter (fun p => p.1 ≠ k) ++ [(k, v)]

/-- Method `Header.Del`. -/
def Header.Del (h : List (String × String)) (k : String) : List (String × String) :=
  h.filter (fun p => p.1 ≠ k)

/-- Method `Header.Get`. -/
def Header.Get (h : List (String × String)) (k : String) : String :=
  Values.Get h k

/-- Method `w.Header().Set(k, v)`. -/
def ResponseWriter.SetHeader (w : ResponseWriter) (k v : String) : ResponseWriter :=
  { w with header := Header.Set w.header k v }

/-- Method `w.WriteHeader(code)`: the first call fixes the status, later calls are ignored. -/
def ResponseWriter.WriteHeader (w : ResponseWriter) (code : Nat) : ResponseWriter :=
  match w.status with
  | none => { w with status := some code }
  | some _ => w

/-- Method `w.Write`: writes status 200 first when no status was written yet. -/
def ResponseWriter.Write (w : ResponseWriter) (s : String) : ResponseWriter :=
  let w1 := w.WriteHeader 200
  { w1 with body := w1.body ++ s }

def StatusOK : Nat := 200
def StatusBadRequest : Nat := 400
def StatusNotFound : Nat := 404
def StatusInternalServerError : Nat := 500

/-- Function `http.Error(w, error, code)` on a response writer. -/
def ResponseWriter.Error (w : ResponseWriter) (error : String) (code : Nat) : ResponseWriter :=
  let w1 := { w with header := Header.Del w.header "Content-Length" }
  let w2 := w1.SetHeader "Content-Type" "text/plain; charset=utf-8"
  let w3 := w2.SetHeader "X-Content-Type-Options" "nosniff"
  let w4 := w3.WriteHeader code
  w4.Write (error ++ "\n")

/-! ## Library types the example touches -/

/-- Go `time.Duration` counts nanoseconds; this is `time.Second`. -/
def Second : Int := 1000000000

/-- The library's `HeartbeatConfig` struct literal as `main` fills it: two durations in
nanoseconds and the number of consecutive missed pongs before a forced close. -/
structure HeartbeatConfig where
  Interval : Int
  Timeout : Int
  MaxMissed : Nat
  deriving DecidableEq, Repr

/-- A `wrapsocket.Message`. -/
structure Message where
  Typ : MessageType
  Data : List UInt8
  deriving DecidableEq, Repr

/-- Lifecycle of a connection, in the order the states are passed through. -/
inductive Lifecycle where
  | Connecting
  | Open
  | Closing
  | Closed
  deriving DecidableEq, Repr

/-- Values a metadata store can hold (Go `any`): the nil interface, a `time.Time` as
nanoseconds since the epoch, a string or an integer. -/
inductive Value where
  | nil
  | time (unixNano : Int)
  | str (s : String)
  | int (i : Int)
  deriving DecidableEq, Repr

/-- Modelled from the spec: the library's `Conn` (the library package is not in the source
tree).  A connection has an immutable identity, a metadata store mapping string keys to
values, a lifecycle state, and the messages delivered to its stream so far. -/
structure Conn where
  ID : String
  metadata : List (String × Value)
  state : Lifecycle
  sent : List Message
  deriving DecidableEq, Repr

/-- Modelled from the spec: a connection as the Handler creates it on a successful upgrade. -/
def Conn.new (id : String) : Conn := ⟨id, [], Lifecycle.Connecting, []⟩

/-- Modelled from the spec: `SetMetadata(key, value)`, a write into the per-connection
metadata store (last write wins). -/
def Conn.SetMetadata (c : Conn) (key : String) (value : Value) : Conn :=
  { c with metadata := (key, value) :: c.metadata.filter (fun p => p.1 ≠ key) }

/-- Modelled from the spec: `GetMetadata(key) -> (value, bool)`, a read of the
per-connection metadata store. -/
def Conn.GetMetadata (c : Conn) (key : String) : Value × Bool :=
  match c.metadata.find? (fun p => p.1 = key) with
  | some p => (p.2, true)
  | none => (Value.nil, false)

/-! ## Effects of the example program -/

/-- An argument handed to `log.Printf` next to the format string. -/
inductive Arg where
  | str (s : String)
  | bytes (b : List UInt8)
  deriving DecidableEq, Repr

/-- The calls the example makes into the library, `net/http` and `log`, in program order. -/
inductive Effect where
  | NewDefaultHandler
  | SetHeartbeatConfig (cfg : HeartbeatConfig)
  | SetOnConnect
  | SetOnDisconnect
  | SetOnMessage
  | SetOnError
  | NewServeMux
  | Handle (pattern : String)
  | HandleFunc (pattern : String)
  | Printf (format : String) (args : List Arg)
  | ListenAndServe (addr : String)
  | Fatalf (format : String) (args : List Arg)
  | Broadcast (typ : MessageType) (data : List UInt8)
  | Count
  | SetMetadata (id : String) (key : String)
  | Upgrade
  | ServeFile (name : String)
  | FileServer (dir : String)
  deriving DecidableEq, Repr

/-- The five configuration setters of the handler. -/
def Effect.isSetter : Effect → Bool
  | Effect.SetHeartbeatConfig _ => true
  | Effect.SetOnConnect => true
  | Effect.SetOnDisconnect => true
  | Effect.SetOnMessage => true
  | Effect.SetOnError => true
  | _ => false

/-- Whether an effect is the call of `http.ListenAndServe`. -/
def Effect.isListen : Effect → Bool
  | Effect.ListenAndServe _ => true
  | _ => false

/-- The query surface of the library's Manager that the HTTP layer consumes, over an
arbitrary manager state `σ`: `Broadcast(ctx, type, data) -> error` and `Count() -> int`. -/
structure ManagerAPI (σ : Type) where
  Broadcast : σ → Context → MessageType → List UInt8 → GoError × σ
  Count : σ → Int

/-- What a request handler of the example works on: the response writer, the state of the
manager behind `handler.Manager()`, and the calls made so far. -/
structure World (σ : Type) where
  w : ResponseWriter
  mgr : σ
  trace : List Effect

/-- An `http.Handler`. -/
abbrev Handler (σ : Type) := Request → World σ → World σ

/-! ## `example/main.go` -/

/-- The literal passed to `SetHeartbeatConfig` in `main`. -/
def exampleHeartbeatConfig : HeartbeatConfig :=
  { Interval := 15 * Second, Timeout := 5 * Second, MaxMissed := 3 }

/-- The `OnConnect` callback of `main`: logs, then stores the join time under `joinedAt`. -/
def OnConnect (now : Int) (conn : Conn) (trace : List Effect) : Conn × List Effect :=
  let trace := trace ++ [Effect.Printf "[Server] Client connected: %s" [Arg.str conn.ID]]
  (conn.SetMetadata "joinedAt" (Value.time now), trace ++ [Effect.SetMetadata conn.ID "joinedAt"])

/-- The `OnDisconnect` callback of `main`. -/
def OnDisconnect (conn : Conn) (trace : List Effect) : Conn × List Effect :=
  (conn, trace ++ [Effect.Printf "[Server] Client disconnected: %s" [Arg.str conn.ID]])

/-- The `OnMessage` callback of `main`. -/
def OnMessage (conn : Conn) (msg : Message) (trace : List Effect) : Conn × List Effect :=
  (conn, trace ++ [Effect.Printf "[Server] Message from %s: %s" [Arg.str conn.ID, Arg.bytes msg.Data]])

/-- The `OnError` callback of `main`; `err` is the text of the error. -/
def OnError (conn : Conn) (err : String) (trace : List Effect) : Conn × List Effect :=
  (conn, trace ++ [Effect.Printf "[Server] Error from %s: %v" [Arg.str conn.ID, Arg.str err]])

/-- The handler `main` registers under `/broadcast`. -/
def broadcastHandler {σ : Type} (api : ManagerAPI σ) : Handler σ := fun r s =>
  let msg := Values.Get r.Query "msg"
  if msg = "" then
    { s with w := s.w.Error "msg parameter required" StatusBadRequest }
  else
    let res := api.Broadcast s.mgr r.Ctx MessageType.MessageText (bytes msg)
    let s1 : World σ :=
      { s with mgr := res.2, trace := s.trace ++ [Effect.Broadcast MessageType.MessageText (bytes msg)] }
    match res.1 with
    | some err => { s1 with w := s1.w.Error err StatusInternalServerError }
    | none =>
      let n := api.Count s1.mgr
      let s2 : World σ := { s1 with trace := s1.trace ++ [Effect.Count] }
      { s2 with w := s2.w.Write ("Broadcast to " ++ toString n ++ " connections\n") }

/-- The handler `main` registers under `/stats`. -/
def statsHandler {σ : Type} (api : ManagerAPI σ) : Handler σ := fun _ s =>
  let n := api.Count s.mgr
  let s1 : World σ := { s with trace := s.trace ++ [Effect.Count] }
  { s1 with w := s1.w.Write ("Active connections: " ++ toString n ++ "\n") }

/-- The handler `main` registers under `/`.  What `http.ServeFile` writes depends on the
file system and is left out; the call is recorded. -/
def rootHandler {σ : Type} : Handler σ := fun r s =>
  if r.Path = "/" then
    { s with trace := s.trace ++ [Effect.ServeFile "./index.html"] }
  else
    { s with w := s.w.Error "404 page not found" StatusNotFound }

/-- The library handler mounted under `/ws`; the upgrade itself is outside the example. -/
def wsHandler {σ : Type} : Handler σ := fun _ s =>
  { s with trace := s.trace ++ [Effect.Upgrade] }

/-- The static file server mounted under `/wrapsocket-ts/dist/`. -/
def distHandler {σ : Type} : Handler σ := fun _ s =>
  { s with trace := s.trace ++ [Effect.FileServer "../wrapsocket-ts/dist"] }

/-- The `ServeMux` that `main` fills: exact patterns, the subtree pattern of the file
server, and the catch-all `/`. -/
def mux {σ : Type} (api : ManagerAPI σ) : Handler σ := fun r s =>
  if r.Path = "/ws" then wsHandler r s
  else if r.Path = "/broadcast" then broadcastHandler api r s
  else if r.Path = "/stats" then statsHandler api r s
  else if r.Path.startsWith "/wrapsocket-ts/dist/" then distHandler r s
  else rootHandler r s

/-- Function `corsMiddleware` of `main.go`. -/
def corsMiddleware {σ : Type} (next : Handler σ) : Handler σ := fun r s =>
  let s1 : World σ := { s with w := s.w.SetHeader "Access-Control-Allow-Origin" "*" }
  let s2 : World σ := { s1 with w := s1.w.SetHeader "Access-Control-Allow-Methods" "GET, POST, OPTIONS" }
  let s3 : World σ := { s2 with w := s2.w.SetHeader "Access-Control-Allow-Headers" "Content-Type" }
  if r.Method = "OPTIONS" then
    { s3 with w := s3.w.WriteHeader StatusOK }
  else
    next r s3

/-- The listen address of `main`. -/
def addr : String := ":3001"

/-- Function `main` up to and including the call of `http.ListenAndServe`: the calls it
makes, in program order. -/
def main : List Effect :=
  [ Effect.NewDefaultHandler,
    Effect.SetHeartbeatConfig exampleHeartbeatConfig,
    Effect.SetOnConnect,
    Effect.SetOnDisconnect,
    Effect.SetOnMessage,
    Effect.SetOnError,
    Effect.NewServeMux,
    Effect.Handle "/ws",
    Effect.HandleFunc "/broadcast",
    Effect.HandleFunc "/stats",
    Effect.Handle "/wrapsocket-ts/dist/",
    Effect.HandleFunc "/",
    Effect.Printf "[Server] Starting WebSocket server on %s" [Arg.str addr],
    Effect.Printf "[Server] WebSocket endpoint: ws://localhost%s/ws" [Arg.str addr],
    Effect.Printf "[Server] Stats: http://localhost%s/stats" [Arg.str addr],
    Effect.Printf "[Server] Broadcast: http://localhost%s/broadcast?msg=hello" [Arg.str addr],
    Effect.Printf "[Server] Open http://localhost%s in browser" [Arg.str addr],
    Effect.ListenAndServe addr ]

/-- What happens while `http.ListenAndServe` serves: a request reaches
`corsMiddleware(mux)`, or the library invokes one of the four callbacks. -/
inductive ServeEvent where
  | request (r : Request)
  | connect (now : Int) (conn : Conn)
  | disconnect (conn : Conn)
  | message (conn : Conn) (msg : Message)
  | error (conn : Conn) (err : String)

/-- One serving event applied to the world; every request gets a fresh response writer. -/
def serveStep {σ : Type} (api : ManagerAPI σ) (s : World σ) : ServeEvent → World σ
  | ServeEvent.request r => corsMiddleware (mux api) r { s with w := ResponseWriter.fresh }
  | ServeEvent.connect now conn => { s with trace := (OnConnect now conn s.trace).2 }
  | ServeEvent.disconnect conn => { s with trace := (OnDisconnect conn s.trace).2 }
  | ServeEvent.message conn msg => { s with trace := (OnMessage conn msg s.trace).2 }
  | ServeEvent.error conn err => { s with trace := (OnError conn err s.trace).2 }

/-- A run of the program: `main` up to `ListenAndServe`, the serving events, and, when
`ListenAndServe` returns with error `exit`, the final `log.Fatalf`. -/
def runProgram {σ : Type} (api : ManagerAPI σ) (m0 : σ) (events : List ServeEvent)
    (exit : GoError) : List Effect :=
  let s := events.foldl (serveStep api) ⟨ResponseWriter.fresh, m0, main⟩
  match exit with
  | some err => s.trace ++ [Effect.Fatalf "[Server] Failed to start: %v" [Arg.str err]]
  | none => s.trace

/-! ## The connection-manager core, from the specification -/

/-- Modelled from the spec: the Connection Manager of the library (the package is not in the
source tree).  The registry maps connection IDs to connections (kept as a list with one
entry per ID); `closed` keeps the connections that have left the registry, so that their
lifecycle state can still be spoken about; `errors` records the `OnError` reports as
(connection ID, error text). -/
structure Manager where
  registry : List Conn
  closed : List Conn
  errors : List (String × String)
  deriving DecidableEq, Repr

/-- Modelled from the spec: a Manager with no connections. -/
def Manager.empty : Manager := ⟨[], [], []⟩

/-- Modelled from the spec: `Lookup(id) -> (Connection, bool)`. -/
def Manager.Lookup (m : Manager) (id : String) : Option Conn :=
  m.registry.find? (fun c => c.ID = id)

/-- Modelled from the spec: `Count() -> int`, the current registry size. -/
def Manager.Count (m : Manager) : Int := (m.registry.length : Int)

/-- Modelled from the spec: `Register(conn)`, which adds the connection to the registry and
fails with `AlreadyRegistered` on an ID collision; a registered connection is Open. -/
def Manager.Register (m : Manager) (conn : Conn) : GoError × Manager :=
  if m.registry.any (fun c => c.ID = conn.ID) then
    (some "AlreadyRegistered", m)
  else
    (none, { m with registry := m.registry ++ [{ conn with state := Lifecycle.Open }] })

/-- Modelled from the spec: `Deregister(id) -> bool`, which removes the connection if present
and returns whether it was present; a connection that left the registry is Closed. -/
def Manager.Deregister (m : Manager) (id : String) : Bool × Manager :=
  (m.registry.any (fun c => c.ID = id),
   { m with
     registry := m.registry.filter (fun c => c.ID ≠ id),
     closed := m.closed ++
       (m.registry.filter (fun c => c.ID = id)).map (fun c => { c with state := Lifecycle.Closed }) })

/-- Modelled from the spec: the send of one Broadcast to one target of the snapshot.  A
target that has left the registry meanwhile is skipped; a failed send (`SendFailed`) is
reported via `OnError` and the unreachable connection is removed; otherwise the message is
delivered.  `unreachable` lists the IDs whose stream cannot be written to. -/
def Manager.send (unreachable : List String) (typ : MessageType) (data : List UInt8)
    (m : Manager) (id : String) : Manager :=
  match m.Lookup id with
  | none => m
  | some _ =>
    if id ∈ unreachable then
      ({ m with errors := m.errors ++ [(id, "SendFailed")] }.Deregister id).2
    else
      { m with registry := m.registry.map (fun c =>
          if c.ID = id then { c with sent := c.sent ++ [⟨typ, data⟩] } else c) }

/-- Modelled from the spec: `Broadcast(ctx, msgType, data) -> error`.  A cancelled context is
the only error surfaced; otherwise the targets are snapshotted and the message is sent to
each of them. -/
def Manager.Broadcast (unreachable : List String) (m : Manager) (ctx : Context)
    (typ : MessageType) (data : List UInt8) : GoError × Manager :=
  match ctx.Err with
  | some e => (some e, m)
  | none => (none, (m.registry.map (fun c => c.ID)).foldl (Manager.send unreachable typ data) m)

/-- Modelled from the spec: the Manager behind `handler.Manager()`, in an environment where
the streams of the connections in `unreachable` cannot be written to. -/
def specManager (unreachable : List String) : ManagerAPI Manager :=
  { Broadcast := Manager.Broadcast unreachable, Count := Manager.Count }

/-- An operation on the Manager: a registration of a newly created connection, a
deregistration, or a broadcast together with the IDs whose send fails during it. -/
inductive Op where
  | Register (id : String)
  | Deregister (id : String)
  | Broadcast (ctx : Context) (typ : MessageType) (data : List UInt8) (unreachable : List String)
  deriving DecidableEq, Repr

/-- One operation applied to the Manager (a failed registration is ignored). -/
def Manager.apply (m : Manager) : Op → Manager
  | Op.Register id => (m.Register (Conn.new id)).2
  | Op.Deregister id => (m.Deregister id).2
  | Op.Broadcast ctx typ data unreachable => (m.Broadcast unreachable ctx typ data).2

/-- A sequence of operations applied, in order, to a Manager that starts empty. -/
def Manager.run (ops : List Op) : Manager := ops.foldl Manager.apply Manager.empty

/-- Number of connections, registered or not, whose lifecycle state is Open. -/
def Manager.openCount (m : Manager) : Nat :=
  ((m.registry ++ m.closed).filter (fun c => c.state = Lifecycle.Open)).length

/-- Whether the operation registers `id`. -/
def Op.registers (id : String) : Op → Bool
  | Op.Register i => i = id
  | _ => false

/-- Whether the operation takes `id` out of the registry: a deregistration of `id`, or a
broadcast that was not cancelled and whose send to `id` fails. -/
def Op.removes (id : String) : Op → Bool
  | Op.Deregister i => i = id
  | Op.Broadcast ctx _ _ unreachable => ctx.Err = none && id ∈ unreachable
  | _ => false

/-- Reading of "registered and not since deregistered" on a history given most recent
operation first: the latest operation that registers or removes `id` registers it. -/
def registeredSince (id : String) : List Op → Bool
  | [] => false
  | o :: older =>
    if o.registers id then true
    else if o.removes id then false
    else registeredSince id older

/-- The ID an operation registers, if it is a registration. -/
def Op.registered? : Op → Option String
  | Op.Register i => some i
  | _ => none

/-- The distinct IDs that a history of operations has registered and not since removed. -/
def liveIDs (ops : List Op) : List String :=
  ((ops.filterMap Op.registered?).dedup).filter (fun id => registeredSince id ops.reverse)

/-! ## The heartbeat monitor of one connection, from the specification -/

/-- States of the heartbeat monitor. -/
inductive MonitorState where
  | Idle
  | Active
  | Failed
  | Stopped
  deriving DecidableEq, Repr

/-- Modelled from the spec: one connection as its heartbeat monitor sees it (the library
package is not in the source tree): lifecycle state, monitor state, missed-ping counter,
whether the Manager has it registered, and how often `OnDisconnect` has fired for it. -/
structure Monitored where
  state : Lifecycle
  monitor : MonitorState
  missed : Nat
  registered : Bool
  disconnects : Nat
  deriving DecidableEq, Repr

/-- Modelled from the spec: a connection that was created and not yet registered. -/
def Monitored.init : Monitored := ⟨Lifecycle.Connecting, MonitorState.Idle, 0, false, 0⟩

/-- What can happen to a monitored connection: it is registered and its monitor starts, an
Interval tick fires (with whether the pong for the previous ping was observed), or the
connection closes for another reason (stream error, clean close, manager-initiated close). -/
inductive MonitorEvent where
  | Start
  | Tick (pong : Bool)
  | Close
  deriving DecidableEq, Repr

/-- Modelled from the spec: closure of a connection: an Open connection is deregistered,
fires `OnDisconnect` and ends Closed; closing a connection that is not Open does nothing. -/
def Monitored.close (s : Monitored) : Monitored :=
  if s.state = Lifecycle.Open then
    { s with state := Lifecycle.Closed, registered := false, disconnects := s.disconnects + 1 }
  else s

/-- Modelled from the spec: the transitions of the heartbeat state machine under the
configuration `cfg`. -/
def Monitored.step (cfg : HeartbeatConfig) (s : Monitored) : MonitorEvent → Monitored
  | MonitorEvent.Start =>
    if s.state = Lifecycle.Connecting then
      { s with state := Lifecycle.Open, registered := true, monitor := MonitorState.Active, missed := 0 }
    else s
  | MonitorEvent.Tick pong =>
    match s.monitor with
    | MonitorState.Active =>
      if pong then { s with missed := 0 }
      else
        let s1 := { s with missed := s.missed + 1 }
        if cfg.MaxMissed ≤ s1.missed then
          { s1 with monitor := MonitorState.Failed }.close
        else s1
    | _ => s
  | MonitorEvent.Close =>
    match s.monitor with
    | MonitorState.Active => { s with monitor := MonitorState.Stopped }.close
    | MonitorState.Failed => { s with monitor := MonitorState.Stopped }.close
    | _ => s.close

/-- A sequence of events applied, in order, to a monitored connection. -/
def Monitored.run (cfg : HeartbeatConfig) (s : Monitored) (events : List MonitorEvent) : Monitored :=
  events.foldl (Monitored.step cfg) s

/-- Longest streak of consecutive missed pongs in a sequence of ticks (`true` is an observed
pong), where `cur` misses precede the sequence and `best` is the longest streak so far. -/
def missStreak (cur best : Nat) : List Bool → Nat
  | [] => best
  | true :: rest => missStreak 0 best rest
  | false :: rest => missStreak (cur + 1) (max best (cur + 1)) rest

/-- The constraints the configuration surface puts on a `HeartbeatConfig`. -/
def HeartbeatConfig.valid (cfg : HeartbeatConfig) : Prop :=
  0 < cfg.Interval ∧ 0 < cfg.Timeout ∧ cfg.Timeout < cfg.Interval ∧ 1 ≤ cfg.MaxMissed

/-! ## Concrete inputs and trace predicates -/

/-- The request `GET /broadcast?msg=hello`. -/
def helloRequest : Request := ⟨"GET", "/broadcast", [("msg", "hello")], ⟨none⟩⟩

/-- The request `GET /broadcast?msg=hello` whose context has been cancelled. -/
def cancelledRequest : Request :=
  ⟨"GET", "/broadcast", [("msg", "hello")], ⟨some "context canceled"⟩⟩

/-- The request `GET /broadcast` without a `msg` parameter. -/
def bareRequest : Request := ⟨"GET", "/broadcast", [], ⟨none⟩⟩

/-- The preflight request `OPTIONS /broadcast`. -/
def preflightRequest : Request := ⟨"OPTIONS", "/broadcast", [], ⟨none⟩⟩

/-- A Manager on which the connections `a`, `b` and `c` have been registered. -/
def threeConns : Manager :=
  Manager.run [Op.Register "a", Op.Register "b", Op.Register "c"]

/-- The world a request meets on a server whose Manager holds `a`, `b` and `c`. -/
def threeWorld : World Manager := ⟨ResponseWriter.fresh, threeConns, []⟩

/-- The trace `t2` continues the trace `t1` by calls none of which is a setter or the
start of serving. -/
def quietExtension (t1 t2 : List Effect) : Prop :=
  ∃ rest, t2 = t1 ++ rest ∧ ∀ e ∈ rest, e.isSetter = false ∧ e.isListen = false

/-- Every registered connection is Open and every connection that has left the registry
is Closed. -/
def Manager.consistent (m : Manager) : Prop :=
  (∀ c ∈ m.registry, c.state = Lifecycle.Open) ∧ (∀ c ∈ m.closed, c.state = Lifecycle.Closed)

/-- The connection is Open, registered, monitored, and has not fired `OnDisconnect`. -/
def Monitored.live (s : Monitored) : Prop :=
  s.state = Lifecycle.Open ∧ s.monitor = MonitorState.Active ∧ s.registered = true ∧
    s.disconnects = 0

/-- The three shapes a monitored connection passes through: not yet registered; live;
closed, deregistered, with `OnDisconnect` fired once. -/
def Monitored.shape (s : Monitored) : Prop :=
  (s.state = Lifecycle.Connecting ∧ s.monitor = MonitorState.Idle ∧ s.registered = false ∧
    s.disconnects = 0) ∨
  s.live ∨
  (s.state = Lifecycle.Closed ∧
    (s.monitor = MonitorState.Failed ∨ s.monitor = MonitorState.Stopped) ∧
    s.registered = false ∧ s.disconnects = 1)

/-! ## Facts about the response writer -/

theorem find?_filter_of_imp {α : Type} (p q : α → Bool) (l : List α)
    (hpq : ∀ x, p x = true → q x = true) :
    (l.filter q).find? p = l.find? p := by
  induction l with
  | nil => rfl
  | cons a t ih =>
    cases hq : q a with
    | true =>
      rw [List.filter_cons_of_pos hq, List.find?_cons, List.find?_cons, ih]
    | false =>
      have hp : p a = false := by
        cases hpa : p a with
        | false => rfl
        | true => rw [hpq a hpa] at hq; exact absurd hq (by decide)
      rw [List.filter_cons_of_neg (by simp [hq]), List.find?_cons, hp, ih]

theorem find?_filter_none {α : Type} (p q : α → Bool) (l : List α)
    (hpq : ∀ x, q x = true → p x = false) :
    (l.filter q).find? p = none := by
  rw [List.find?_eq_none]
  intro x hx
  have := hpq x (List.mem_filter.1 hx).2
  simp [this]

theorem Values.Get_filter_append (h : List (String × String)) (k v : String) :
    Values.Get (h.filter (fun p => p.1 ≠ k) ++ [(k, v)]) k = v := by
  unfold Values.Get
  have hnone : (h.filter (fun p => p.1 ≠ k)).find? (fun p => p.1 = k) = none :=
    find?_filter_none _ _ h (by intro x hx; simpa using hx)
  rw [List.find?_append, hnone]
  simp [List.find?_cons]

theorem Values.Get_filter_append_ne (h : List (String × String)) (k v k2 : String)
    (hne : k2 ≠ k) :
    Values.Get (h.filter (fun p => p.1 ≠ k) ++ [(k, v)]) k2 = Values.Get h k2 := by
  unfold Values.Get
  have hfilter : (h.filter (fun p => p.1 ≠ k)).find? (fun p => p.1 = k2)
      = h.find? (fun p => p.1 = k2) :=
    find?_filter_of_imp _ _ h (by
      intro x hx
      have hx2 : x.1 = k2 := by simpa using hx
      have : x.1 ≠ k := fun h2 => hne (hx2.symm.trans h2)
      simpa using this)
  have hk : ¬ k = k2 := fun h2 => hne h2.symm
  rw [List.find?_append, hfilter]
  cases hfind : h.find? (fun p => p.1 = k2) <;> simp [List.find?_cons, hk]

theorem Header.Get_Set (h : List (String × String)) (k v : String) :
    Header.Get (Header.Set h k v) k = v :=
  Values.Get_filter_append h k v

theorem Header.Get_Set_ne (h : List (String × String)) (k v k2 : String) (hne : k2 ≠ k) :
    Header.Get (Header.Set h k v) k2 = Header.Get h k2 :=
  Values.Get_filter_append_ne h k v k2 hne

theorem ResponseWriter.Error_body (w : ResponseWriter) (e : String) (code : Nat) :
    (w.Error e code).body = w.body ++ (e ++ "\n") := by
  cases hs : w.status <;>
    simp [ResponseWriter.Error, ResponseWriter.Write, ResponseWriter.WriteHeader,
      ResponseWriter.SetHeader, hs]

theorem ResponseWriter.Error_status (w : ResponseWriter) (e : String) (code : Nat)
    (hs : w.status = none) : (w.Error e code).status = some code := by
  simp [ResponseWriter.Error, ResponseWriter.Write, ResponseWriter.WriteHeader,
    ResponseWriter.SetHeader, hs]

theorem ResponseWriter.Write_body (w : ResponseWriter) (t : String) :
    (w.Write t).body = w.body ++ t := by
  cases hs : w.status <;> simp [ResponseWriter.Write, ResponseWriter.WriteHeader, hs]

/-! ## The `/broadcast` handler -/

/-- Claim C1.  When `msg` is non-empty and `Manager.Broadcast` returns the error `err`, the
`/broadcast` handler writes `err.Error()` and a newline to the body and nothing else, answers
with status 500 on a response whose status was not written before, and the only Manager call
it makes is that one `Broadcast` (in particular `Count` is not called). -/
theorem broadcastHandler_error {σ : Type} (api : ManagerAPI σ) (r : Request) (s : World σ)
    (err : String) (hmsg : Values.Get r.Query "msg" ≠ "")
    (herr : (api.Broadcast s.mgr r.Ctx MessageType.MessageText
      (bytes (Values.Get r.Query "msg"))).1 = some err)
    (hfresh : s.w.status = none) :
    (broadcastHandler api r s).w.status = some 500 ∧
    (broadcastHandler api r s).w.body = s.w.body ++ (err ++ "\n") ∧
    (broadcastHandler api r s).w = s.w.Error err StatusInternalServerError ∧
    (broadcastHandler api r s).trace =
      s.trace ++ [Effect.Broadcast MessageType.MessageText (bytes (Values.Get r.Query "msg"))] ∧
    Effect.Count ∉ (broadcastHandler api r s).trace.drop s.trace.length := by
  have hrun : broadcastHandler api r s =
      { w := s.w.Error err StatusInternalServerError,
        mgr := (api.Broadcast s.mgr r.Ctx MessageType.MessageText
          (bytes (Values.Get r.Query "msg"))).2,
        trace := s.trace ++
          [Effect.Broadcast MessageType.MessageText (bytes (Values.Get r.Query "msg"))] } := by
    simp only [broadcastHandler, if_neg hmsg, herr]
  rw [hrun]
  refine ⟨?_, ?_, rfl, rfl, ?_⟩
  · exact ResponseWriter.Error_status _ _ _ hfresh
  · exact ResponseWriter.Error_body _ _ _
  · simp

theorem broadcastHandler_error_witness :
    (broadcastHandler (specManager []) cancelledRequest threeWorld).w.status = some 500 ∧
    (broadcastHandler (specManager []) cancelledRequest threeWorld).w.body
      = threeWorld.w.body ++ ("context canceled" ++ "\n") ∧
    (broadcastHandler (specManager []) cancelledRequest threeWorld).w
      = threeWorld.w.Error "context canceled" StatusInternalServerError ∧
    (broadcastHandler (specManager []) cancelledRequest threeWorld).trace =
      threeWorld.trace ++ [Effect.Broadcast MessageType.MessageText
        (bytes (Values.Get cancelledRequest.Query "msg"))] ∧
    Effect.Count ∉
      (broadcastHandler (specManager []) cancelledRequest threeWorld).trace.drop
        threeWorld.trace.length :=
  broadcastHandler_error (specManager []) cancelledRequest threeWorld "context canceled"
    (by decide) (by rfl) (by rfl)

/-- Claim C9.  On a response whose status was not written before: when the `msg` query
parameter is absent or empty the `/broadcast` handler answers 400 with the line
`msg parameter required`, makes no Manager call and leaves the Manager untouched; when `msg`
is non-empty it calls `Manager.Broadcast` exactly once, on the Manager state it found, with
the text message type and the bytes of `msg`, and any further Manager call is a `Count`. -/
theorem broadcastHandler_msg {σ : Type} (api : ManagerAPI σ) (r : Request) (s : World σ)
    (hfresh : s.w.status = none) :
    ((r.Query.find? (fun p => p.1 = "msg") = none ∨ Values.Get r.Query "msg" = "") →
      (broadcastHandler api r s).w.status = some 400 ∧
      (broadcastHandler api r s).w.body = s.w.body ++ ("msg parameter required" ++ "\n") ∧
      (broadcastHandler api r s).trace = s.trace ∧
      (broadcastHandler api r s).mgr = s.mgr) ∧
    (Values.Get r.Query "msg" ≠ "" →
      (broadcastHandler api r s).mgr = (api.Broadcast s.mgr r.Ctx MessageType.MessageText
        (bytes (Values.Get r.Query "msg"))).2 ∧
      ∃ rest, (broadcastHandler api r s).trace = s.trace ++
          Effect.Broadcast MessageType.MessageText (bytes (Values.Get r.Query "msg")) :: rest ∧
        ∀ e ∈ rest, e = Effect.Count) := by
  constructor
  · intro habsent
    have hempty : Values.Get r.Query "msg" = "" := by
      rcases habsent with h | h
      · simp [Values.Get, h]
      · exact h
    have hrun : broadcastHandler api r s =
        { s with w := s.w.Error "msg parameter required" StatusBadRequest } := by
      simp only [broadcastHandler, if_pos hempty]
    rw [hrun]
    exact ⟨ResponseWriter.Error_status _ _ _ hfresh, ResponseWriter.Error_body _ _ _, rfl, rfl⟩
  · intro hmsg
    cases hres : (api.Broadcast s.mgr r.Ctx MessageType.MessageText
        (bytes (Values.Get r.Query "msg"))).1 with
    | some err =>
      have hrun : broadcastHandler api r s =
          { w := s.w.Error err StatusInternalServerError,
            mgr := (api.Broadcast s.mgr r.Ctx MessageType.MessageText
              (bytes (Values.Get r.Query "msg"))).2,
            trace := s.trace ++
              [Effect.Broadcast MessageType.MessageText (bytes (Values.Get r.Query "msg"))] } := by
        simp only [broadcastHandler, if_neg hmsg, hres]
      rw [hrun]
      exact ⟨rfl, [], rfl, by simp⟩
    | none =>
      have hrun : broadcastHandler api r s =
          { w := s.w.Write ("Broadcast to " ++ toString (api.Count
              (api.Broadcast s.mgr r.Ctx MessageType.MessageText
                (bytes (Values.Get r.Query "msg"))).2) ++ " connections\n"),
            mgr := (api.Broadcast s.mgr r.Ctx MessageType.MessageText
              (bytes (Values.Get r.Query "msg"))).2,
            trace := s.trace ++
              [Effect.Broadcast MessageType.MessageText (bytes (Values.Get r.Query "msg"))] ++
              [Effect.Count] } := by
        simp only [broadcastHandler, if_neg hmsg, hres]
      rw [hrun]
      exact ⟨rfl, [Effect.Count], by simp, by simp⟩

theorem broadcastHandler_msg_witness :
    ((broadcastHandler (specManager []) bareRequest threeWorld).w.status = some 400 ∧
      (broadcastHandler (specManager []) bareRequest threeWorld).w.body
        = threeWorld.w.body ++ ("msg parameter required" ++ "\n") ∧
      (broadcastHandler (specManager []) bareRequest threeWorld).trace = threeWorld.trace ∧
      (broadcastHandler (specManager []) bareRequest threeWorld).mgr = threeWorld.mgr) ∧
    ((broadcastHandler (specManager []) helloRequest threeWorld).mgr =
        ((specManager []).Broadcast threeWorld.mgr helloRequest.Ctx MessageType.MessageText
          (bytes (Values.Get helloRequest.Query "msg"))).2 ∧
      ∃ rest, (broadcastHandler (specManager []) helloRequest threeWorld).trace =
          threeWorld.trace ++ Effect.Broadcast MessageType.MessageText
            (bytes (Values.Get helloRequest.Query "msg")) :: rest ∧
        ∀ e ∈ rest, e = Effect.Count) :=
  ⟨(broadcastHandler_msg (specManager []) bareRequest threeWorld (by rfl)).1 (Or.inl (by rfl)),
   (broadcastHandler_msg (specManager []) helloRequest threeWorld (by rfl)).2 (by decide)⟩

/-! ## `corsMiddleware` -/

/-- Claim C10.  For every wrapped handler `next`, request `r` and world `s` there is the
response writer `w3` obtained from the incoming one by setting the three CORS headers (its
status and body are the incoming ones).  For method `OPTIONS` the result is `w3` with status
200 written, whatever `next` is, so `next` is not run; for every other method the result is
`next` run once on the same request and on `w3`, with nothing added by the middleware. -/
theorem corsMiddleware_spec {σ : Type} (next : Handler σ) (r : Request) (s : World σ) :
    ∃ w3 : ResponseWriter,
      Header.Get w3.header "Access-Control-Allow-Origin" = "*" ∧
      Header.Get w3.header "Access-Control-Allow-Methods" = "GET, POST, OPTIONS" ∧
      Header.Get w3.header "Access-Control-Allow-Headers" = "Content-Type" ∧
      w3.status = s.w.status ∧ w3.body = s.w.body ∧
      (r.Method = "OPTIONS" →
        corsMiddleware next r s = { s with w := w3.WriteHeader 200 } ∧
        (∀ other : Handler σ, corsMiddleware other r s = corsMiddleware next r s) ∧
        (corsMiddleware next r s).w.header = w3.header ∧
        (s.w.status = none → (corsMiddleware next r s).w.status = some 200)) ∧
      (r.Method ≠ "OPTIONS" → corsMiddleware next r s = next r { s with w := w3 }) := by
  refine ⟨((s.w.SetHeader "Access-Control-Allow-Origin" "*").SetHeader
    "Access-Control-Allow-Methods" "GET, POST, OPTIONS").SetHeader
    "Access-Control-Allow-Headers" "Content-Type", ?_, ?_, ?_, rfl, rfl, ?_, ?_⟩
  · simp only [ResponseWriter.SetHeader]
    rw [Header.Get_Set_ne _ _ _ _ (by decide), Header.Get_Set_ne _ _ _ _ (by decide),
      Header.Get_Set]
  · simp only [ResponseWriter.SetHeader]
    rw [Header.Get_Set_ne _ _ _ _ (by decide), Header.Get_Set]
  · simp only [ResponseWriter.SetHeader]
    rw [Header.Get_Set]
  · intro hopt
    have hrun : ∀ h : Handler σ, corsMiddleware h r s =
        { s with w := (((s.w.SetHeader "Access-Control-Allow-Origin" "*").SetHeader
          "Access-Control-Allow-Methods" "GET, POST, OPTIONS").SetHeader
          "Access-Control-Allow-Headers" "Content-Type").WriteHeader 200 } := by
      intro h
      simp only [corsMiddleware, if_pos hopt, StatusOK]
    refine ⟨hrun next, fun other => by rw [hrun other, hrun next], ?_, ?_⟩
    · rw [hrun next]
      cases hs : s.w.status <;>
        simp [ResponseWriter.WriteHeader, ResponseWriter.SetHeader, hs]
    · intro hs
      rw [hrun next]
      simp [ResponseWriter.WriteHeader, ResponseWriter.SetHeader, hs]
  · intro hopt
    simp only [corsMiddleware, if_neg hopt]

theorem corsMiddleware_spec_witness :
    (∃ w3 : ResponseWriter,
      corsMiddleware (mux (specManager [])) preflightRequest threeWorld
        = { threeWorld with w := w3.WriteHeader 200 } ∧
      (corsMiddleware (mux (specManager [])) preflightRequest threeWorld).w.status = some 200) ∧
    (∃ w3 : ResponseWriter,
      Header.Get w3.header "Access-Control-Allow-Origin" = "*" ∧
      corsMiddleware (mux (specManager [])) helloRequest threeWorld
        = mux (specManager []) helloRequest { threeWorld with w := w3 }) := by
  constructor
  · obtain ⟨w3, _, _, _, _, _, hopt, _⟩ :=
      corsMiddleware_spec (mux (specManager [])) preflightRequest threeWorld
    exact ⟨w3, (hopt (by decide)).1, (hopt (by decide)).2.2.2 (by rfl)⟩
  · obtain ⟨w3, h1, _, _, _, _, _, hother⟩ :=
      corsMiddleware_spec (mux (specManager [])) helloRequest threeWorld
    exact ⟨w3, h1, hother (by decide)⟩

/-! ## The heartbeat configuration of `main` -/

/-- Claim C6.  The `HeartbeatConfig` that `main` passes to `SetHeartbeatConfig` has
Interval 15 s, Timeout 5 s and MaxMissed 3, and satisfies the constraints of the
configuration surface: Interval > 0, Timeout > 0, Timeout < Interval, MaxMissed ≥ 1. -/
theorem exampleHeartbeatConfig_valid :
    Effect.SetHeartbeatConfig exampleHeartbeatConfig ∈ main ∧
    exampleHeartbeatConfig.Interval = 15 * Second ∧
    exampleHeartbeatConfig.Timeout = 5 * Second ∧
    exampleHeartbeatConfig.MaxMissed = 3 ∧
    exampleHeartbeatConfig.valid ∧
    0 < exampleHeartbeatConfig.Interval ∧
    0 < exampleHeartbeatConfig.Timeout ∧
    exampleHeartbeatConfig.Timeout < exampleHeartbeatConfig.Interval ∧
    1 ≤ exampleHeartbeatConfig.MaxMissed := by
  refine ⟨by simp [main], rfl, rfl, rfl, ?_, ?_, ?_, ?_, ?_⟩ <;>
    simp [HeartbeatConfig.valid, exampleHeartbeatConfig, Second]

/-! ## Configuration happens before serving -/

theorem quietExtension_refl (t : List Effect) : quietExtension t t :=
  ⟨[], by simp, by simp⟩

theorem quietExtension_append (t rest : List Effect)
    (h : ∀ e ∈ rest, e.isSetter = false ∧ e.isListen = false) : quietExtension t (t ++ rest) :=
  ⟨rest, rfl, h⟩

theorem quietExtension_trans {t1 t2 t3 : List Effect} (h12 : quietExtension t1 t2)
    (h23 : quietExtension t2 t3) : quietExtension t1 t3 := by
  obtain ⟨r1, rfl, h1⟩ := h12
  obtain ⟨r2, rfl, h2⟩ := h23
  refine ⟨r1 ++ r2, by simp, ?_⟩
  intro e he
  rcases List.mem_append.1 he with h | h
  · exact h1 e h
  · exact h2 e h

theorem broadcastHandler_quiet {σ : Type} (api : ManagerAPI σ) (r : Request) (s : World σ) :
    quietExtension s.trace (broadcastHandler api r s).trace := by
  by_cases hmsg : Values.Get r.Query "msg" = ""
  · have hrun : (broadcastHandler api r s).trace = s.trace := by
      simp only [broadcastHandler, if_pos hmsg]
    rw [hrun]
    exact quietExtension_refl _
  · cases hres : (api.Broadcast s.mgr r.Ctx MessageType.MessageText
        (bytes (Values.Get r.Query "msg"))).1 with
    | some err =>
      have hrun : (broadcastHandler api r s).trace = s.trace ++
          [Effect.Broadcast MessageType.MessageText (bytes (Values.Get r.Query "msg"))] := by
        simp only [broadcastHandler, if_neg hmsg, hres]
      rw [hrun]
      exact quietExtension_append _ _ (by simp [Effect.isSetter, Effect.isListen])
    | none =>
      have hrun : (broadcastHandler api r s).trace = s.trace ++
          [Effect.Broadcast MessageType.MessageText (bytes (Values.Get r.Query "msg")),
            Effect.Count] := by
        simp only [broadcastHandler, if_neg hmsg, hres, List.append_assoc, List.singleton_append]
      rw [hrun]
      exact quietExtension_append _ _ (by simp [Effect.isSetter, Effect.isListen])

theorem statsHandler_quiet {σ : Type} (api : ManagerAPI σ) (r : Request) (s : World σ) :
    quietExtension s.trace (statsHandler api r s).trace :=
  quietExtension_append _ [Effect.Count] (by simp [Effect.isSetter, Effect.isListen])

theorem rootHandler_quiet {σ : Type} (r : Request) (s : World σ) :
    quietExtension s.trace (rootHandler r s).trace := by
  unfold rootHandler
  split_ifs
  · exact quietExtension_append _ [Effect.ServeFile "./index.html"]
      (by simp [Effect.isSetter, Effect.isListen])
  · exact quietExtension_refl _

theorem mux_quiet {σ : Type} (api : ManagerAPI σ) (r : Request) (s : World σ) :
    quietExtension s.trace (mux api r s).trace := by
  unfold mux
  split_ifs
  · exact quietExtension_append _ [Effect.Upgrade] (by simp [Effect.isSetter, Effect.isListen])
  · exact broadcastHandler_quiet api r s
  · exact statsHandler_quiet api r s
  · exact quietExtension_append _ [Effect.FileServer "../wrapsocket-ts/dist"]
      (by simp [Effect.isSetter, Effect.isListen])
  · exact rootHandler_quiet r s

theorem corsMiddleware_quiet {σ : Type} (next : Handler σ)
    (hnext : ∀ r s, quietExtension s.trace (next r s).trace) (r : Request) (s : World σ) :
    quietExtension s.trace (corsMiddleware next r s).trace := by
  unfold corsMiddleware
  split_ifs
  · exact quietExtension_refl _
  · exact hnext r _

theorem serveStep_quiet {σ : Type} (api : ManagerAPI σ) (s : World σ) (ev : ServeEvent) :
    quietExtension s.trace (serveStep api s ev).trace := by
  cases ev with
  | request r =>
    have h := corsMiddleware_quiet (mux api) (mux_quiet api) r
      { s with w := ResponseWriter.fresh }
    exact h
  | connect now conn =>
    have h := quietExtension_append s.trace
      [Effect.Printf "[Server] Client connected: %s" [Arg.str conn.ID],
        Effect.SetMetadata conn.ID "joinedAt"] (by simp [Effect.isSetter, Effect.isListen])
    have heq : (serveStep api s (ServeEvent.connect now conn)).trace = s.trace ++
        [Effect.Printf "[Server] Client connected: %s" [Arg.str conn.ID],
          Effect.SetMetadata conn.ID "joinedAt"] := by
      simp [serveStep, OnConnect]
    rw [heq]
    exact h
  | disconnect conn =>
    have h := quietExtension_append s.trace
      [Effect.Printf "[Server] Client disconnected: %s" [Arg.str conn.ID]]
      (by simp [Effect.isSetter, Effect.isListen])
    exact h
  | message conn msg =>
    have h := quietExtension_append s.trace
      [Effect.Printf "[Server] Message from %s: %s" [Arg.str conn.ID, Arg.bytes msg.Data]]
      (by simp [Effect.isSetter, Effect.isListen])
    exact h
  | error conn err =>
    have h := quietExtension_append s.trace
      [Effect.Printf "[Server] Error from %s: %v" [Arg.str conn.ID, Arg.str err]]
      (by simp [Effect.isSetter, Effect.isListen])
    exact h

theorem serve_quiet {σ : Type} (api : ManagerAPI σ) (events : List ServeEvent) (s : World σ) :
    quietExtension s.trace (events.foldl (serveStep api) s).trace := by
  induction events generalizing s with
  | nil => exact quietExtension_refl _
  | cons ev rest ih =>
    rw [List.foldl_cons]
    exact quietExtension_trans (serveStep_quiet api s ev) (ih _)

/-- Claim C7.  Every run of the program (any Manager, any sequence of requests and callback
invocations while serving, any exit of `ListenAndServe`) has the form
`pre ++ ListenAndServe ":3001" :: rest` where serving has not begun in `pre`, each of
`SetHeartbeatConfig`, `SetOnConnect`, `SetOnDisconnect`, `SetOnMessage`, `SetOnError` occurs
exactly once in `pre` and these are all setter calls of `pre`, and `rest` (the calls made by
request handlers and callbacks, and the final `log.Fatalf`) contains no setter call. -/
theorem main_configures_before_serving {σ : Type} (api : ManagerAPI σ) (m0 : σ)
    (events : List ServeEvent) (exit : GoError) :
    ∃ pre rest, runProgram api m0 events exit = pre ++ Effect.ListenAndServe addr :: rest ∧
      pre.count (Effect.SetHeartbeatConfig exampleHeartbeatConfig) = 1 ∧
      pre.count Effect.SetOnConnect = 1 ∧
      pre.count Effect.SetOnDisconnect = 1 ∧
      pre.count Effect.SetOnMessage = 1 ∧
      pre.count Effect.SetOnError = 1 ∧
      pre.countP Effect.isSetter = 5 ∧
      (∀ e ∈ pre, e.isListen = false) ∧
      (∀ e ∈ rest, e.isSetter = false ∧ e.isListen = false) ∧
      (runProgram api m0 events exit).countP Effect.isSetter = 5 := by
  obtain ⟨served, hserved, hquiet⟩ := serve_quiet api events ⟨ResponseWriter.fresh, m0, main⟩
  have hshape : ∃ rest, runProgram api m0 events exit = main ++ rest ∧
      ∀ e ∈ rest, e.isSetter = false ∧ e.isListen = false := by
    cases exit with
    | none => exact ⟨served, by simp only [runProgram, hserved], hquiet⟩
    | some err =>
      refine ⟨served ++ [Effect.Fatalf "[Server] Failed to start: %v" [Arg.str err]],
        by simp only [runProgram, hserved, List.append_assoc], ?_⟩
      intro e he
      rcases List.mem_append.1 he with h | h
      · exact hquiet e h
      · simp only [List.mem_singleton] at h
        subst h
        exact ⟨rfl, rfl⟩
  obtain ⟨rest, hrun, hrest⟩ := hshape
  have hmain : main = main.dropLast ++ [Effect.ListenAndServe addr] := by decide
  have hcount : rest.countP Effect.isSetter = 0 := by
    rw [List.countP_eq_zero]
    intro e he
    simp [(hrest e he).1]
  refine ⟨main.dropLast, rest, ?_, by decide, by decide, by decide, by decide, by decide,
    by decide, by decide, hrest, ?_⟩
  · rw [hrun]
    conv_lhs => rw [hmain]
    simp
  · rw [hrun, List.countP_append, hcount]
    decide

/-! ## Per-connection metadata -/

theorem Conn.GetMetadata_SetMetadata (c : Conn) (k : String) (v : Value) :
    (c.SetMetadata k v).GetMetadata k = (v, true) := by
  simp [Conn.GetMetadata, Conn.SetMetadata, List.find?_cons]

theorem Conn.GetMetadata_SetMetadata_ne (c : Conn) (k k2 : String) (v : Value) (hne : k2 ≠ k) :
    (c.SetMetadata k v).GetMetadata k2 = c.GetMetadata k2 := by
  have hk : ¬ k = k2 := fun h => hne h.symm
  have hfilter : (c.metadata.filter (fun p => p.1 ≠ k)).find? (fun p => p.1 = k2)
      = c.metadata.find? (fun p => p.1 = k2) :=
    find?_filter_of_imp _ _ c.metadata (by
      intro x hx
      have hx2 : x.1 = k2 := by simpa using hx
      have : x.1 ≠ k := fun h2 => hne (hx2.symm.trans h2)
      simpa using this)
  simp only [Conn.GetMetadata, Conn.SetMetadata, List.find?_cons, hk, decide_False, hfilter]

theorem Conn.GetMetadata_foldl_SetMetadata (k : String) (writes : List (String × Value))
    (hwrites : ∀ p ∈ writes, p.1 ≠ k) (c : Conn) :
    (writes.foldl (fun d p => d.SetMetadata p.1 p.2) c).GetMetadata k = c.GetMetadata k := by
  induction writes generalizing c with
  | nil => rfl
  | cons p rest ih =>
    rw [List.foldl_cons, ih (fun q hq => hwrites q (List.mem_cons_of_mem _ hq))]
    exact Conn.GetMetadata_SetMetadata_ne c p.1 k p.2
      (fun h => hwrites p (List.mem_cons_self _ _) h.symm)

/-- Claim C5.  On the modelled metadata store: `GetMetadata(k)` right after
`SetMetadata(k, v)` returns `(v, true)`, and still does after any further writes to other
keys; `SetMetadata(k, v)` leaves the result of `GetMetadata` for every other key unchanged;
a key never written on a new connection is reported as not found; and after the `OnConnect`
callback of `main` has run on a connection, `GetMetadata("joinedAt")` on it is found. -/
theorem metadata_read_your_writes (c : Conn) (k : String) (v : Value)
    (writes : List (String × Value)) (id : String) (now : Int) (trace : List Effect) :
    (c.SetMetadata k v).GetMetadata k = (v, true) ∧
    (∀ k2, k2 ≠ k → (c.SetMetadata k v).GetMetadata k2 = c.GetMetadata k2) ∧
    ((∀ p ∈ writes, p.1 ≠ k) →
      (writes.foldl (fun d p => d.SetMetadata p.1 p.2) (c.SetMetadata k v)).GetMetadata k
        = (v, true)) ∧
    ((∀ p ∈ writes, p.1 ≠ k) →
      ((writes.foldl (fun d p => d.SetMetadata p.1 p.2) (Conn.new id)).GetMetadata k).2
        = false) ∧
    (OnConnect now c trace).1.GetMetadata "joinedAt" = (Value.time now, true) := by
  refine ⟨Conn.GetMetadata_SetMetadata c k v,
    fun k2 hne => Conn.GetMetadata_SetMetadata_ne c k k2 v hne, ?_, ?_, ?_⟩
  · intro hwrites
    rw [Conn.GetMetadata_foldl_SetMetadata k writes hwrites, Conn.GetMetadata_SetMetadata]
  · intro hwrites
    rw [Conn.GetMetadata_foldl_SetMetadata k writes hwrites]
    rfl
  · exact Conn.GetMetadata_SetMetadata c "joinedAt" (Value.time now)

theorem metadata_read_your_writes_witness :
    ((Conn.new "a").SetMetadata "room" (Value.str "lobby")).GetMetadata "joinedAt"
      = (Conn.new "a").GetMetadata "joinedAt" ∧
    ([("joinedAt", Value.time 7), ("n", Value.int 1)].foldl (fun d p => d.SetMetadata p.1 p.2)
      ((Conn.new "a").SetMetadata "room" (Value.str "lobby"))).GetMetadata "room"
        = (Value.str "lobby", true) ∧
    (([("joinedAt", Value.time 7), ("n", Value.int 1)].foldl
      (fun d p => d.SetMetadata p.1 p.2) (Conn.new "b")).GetMetadata "room").2 = false :=
  ⟨(metadata_read_your_writes (Conn.new "a") "room" (Value.str "lobby")
      [("joinedAt", Value.time 7), ("n", Value.int 1)] "b" 7 []).2.1 "joinedAt" (by decide),
   (metadata_read_your_writes (Conn.new "a") "room" (Value.str "lobby")
      [("joinedAt", Value.time 7), ("n", Value.int 1)] "b" 7 []).2.2.1 (by decide),
   (metadata_read_your_writes (Conn.new "a") "room" (Value.str "lobby")
      [("joinedAt", Value.time 7), ("n", Value.int 1)] "b" 7 []).2.2.2.1 (by decide)⟩

/-! ## Deregistration -/

/-- Claim C4.  On the modelled Manager, for every registry state and every `id`:
`Deregister(id)` returns true exactly when a connection with that ID was registered;
afterwards no registered connection has that ID, lookups of every other ID give what they
gave before and the registered connections with other IDs are the same; and a repeated
`Deregister(id)` returns false and leaves the Manager unchanged. -/
theorem Deregister_idempotent (m : Manager) (id : String) :
    ((m.Deregister id).1 = true ↔ ∃ c ∈ m.registry, c.ID = id) ∧
    (∀ c ∈ (m.Deregister id).2.registry, c.ID ≠ id) ∧
    (m.Deregister id).2.Lookup id = none ∧
    (∀ id2, id2 ≠ id → (m.Deregister id).2.Lookup id2 = m.Lookup id2) ∧
    (∀ c : Conn, c.ID ≠ id → (c ∈ (m.Deregister id).2.registry ↔ c ∈ m.registry)) ∧
    ((m.Deregister id).2.Deregister id).1 = false ∧
    ((m.Deregister id).2.Deregister id).2 = (m.Deregister id).2 := by
  have hgone : ∀ c ∈ (m.Deregister id).2.registry, c.ID ≠ id := by
    intro c hc
    have := (List.mem_filter.1 hc).2
    simpa using this
  have hnone : (m.registry.filter (fun c => c.ID ≠ id)).filter (fun c => c.ID = id) = [] := by
    rw [List.filter_eq_nil_iff]
    intro c hc
    have := hgone c hc
    simpa using this
  have hsame : (m.registry.filter (fun c => c.ID ≠ id)).filter (fun c => c.ID ≠ id)
      = m.registry.filter (fun c => c.ID ≠ id) := by
    rw [List.filter_filter]
    congr 1
    funext c
    simp
  refine ⟨?_, hgone, ?_, ?_, ?_, ?_, ?_⟩
  · simp [Manager.Deregister]
  · exact find?_filter_none _ _ m.registry (by intro x hx; simpa using hx)
  · intro id2 hne
    exact find?_filter_of_imp _ _ m.registry (by
      intro x hx
      have hx2 : x.ID = id2 := by simpa using hx
      have : x.ID ≠ id := fun h2 => hne (hx2.symm.trans h2)
      simpa using this)
  · intro c hc
    simp [Manager.Deregister, List.mem_filter, hc]
  · simp [Manager.Deregister]
  · simp only [Manager.Deregister, hnone, hsame, List.map_nil, List.append_nil]

theorem Deregister_idempotent_witness :
    (threeConns.Deregister "b").1 = true ∧
    (threeConns.Deregister "b").2.Lookup "a" = threeConns.Lookup "a" ∧
    (⟨"c", [], Lifecycle.Open, []⟩ ∈ (threeConns.Deregister "b").2.registry ↔
      ⟨"c", [], Lifecycle.Open, []⟩ ∈ threeConns.registry) ∧
    ((threeConns.Deregister "b").2.Deregister "b").1 = false :=
  ⟨(Deregister_idempotent threeConns "b").1.2 ⟨⟨"b", [], Lifecycle.Open, []⟩, by decide, rfl⟩,
   (Deregister_idempotent threeConns "b").2.2.2.1 "a" (by decide),
   (Deregister_idempotent threeConns "b").2.2.2.2.1 ⟨"c", [], Lifecycle.Open, []⟩ (by decide),
   (Deregister_idempotent threeConns "b").2.2.2.2.2.1⟩

/-! ## Registry size and open connections -/

theorem Manager.ids_Register (m : Manager) (id : String) :
    ((m.Register (Conn.new id)).2.registry.map (fun c => c.ID)) =
      if id ∈ m.registry.map (fun c => c.ID) then m.registry.map (fun c => c.ID)
      else m.registry.map (fun c => c.ID) ++ [id] := by
  unfold Manager.Register
  by_cases h : id ∈ m.registry.map (fun c => c.ID)
  · have hany : m.registry.any (fun c => c.ID = (Conn.new id).ID) = true := by
      obtain ⟨c, hc, hid⟩ := List.mem_map.1 h
      exact List.any_eq_true.2 ⟨c, hc, by simpa [Conn.new] using hid⟩
    rw [if_pos hany, if_pos h]
  · have hany : ¬ m.registry.any (fun c => c.ID = (Conn.new id).ID) = true := by
      intro hany
      obtain ⟨c, hc, hid⟩ := List.any_eq_true.1 hany
      exact h (List.mem_map.2 ⟨c, hc, by simpa [Conn.new] using hid⟩)
    rw [if_neg hany, if_neg h]
    simp [Conn.new]

theorem Manager.ids_Deregister (m : Manager) (id : String) :
    ((m.Deregister id).2.registry.map (fun c => c.ID)) =
      (m.registry.map (fun c => c.ID)).filter (fun x => x ≠ id) := by
  simp only [Manager.Deregister, List.filter_map]
  rfl

theorem Manager.ids_send (unreachable : List String) (typ : MessageType) (data : List UInt8)
    (m : Manager) (id : String) :
    ((Manager.send unreachable typ data m id).registry.map (fun c => c.ID)) =
      (m.registry.map (fun c => c.ID)).filter (fun x => !(decide (x = id) && decide (id ∈ unreachable))) := by
  unfold Manager.send
  cases hl : m.Lookup id with
  | none =>
    have hnot : ∀ x ∈ m.registry.map (fun c => c.ID), x ≠ id := by
      intro x hx hxid
      obtain ⟨c, hc, hcx⟩ := List.mem_map.1 hx
      have := List.find?_eq_none.1 hl c hc
      simp [hcx, hxid] at this
    symm
    rw [List.filter_eq_self]
    intro x hx
    simp [hnot x hx]
  | some c =>
    by_cases hu : id ∈ unreachable
    · simp only [if_pos hu]
      rw [Manager.ids_Deregister]
      congr 1
      funext x
      simp [hu]
    · simp only [if_neg hu]
      rw [List.map_map]
      have hmap : ((fun c : Conn => c.ID) ∘ fun c : Conn =>
          if c.ID = id then { c with sent := c.sent ++ [⟨typ, data⟩] } else c)
          = fun c : Conn => c.ID := by
        funext c
        by_cases hc : c.ID = id <;> simp [hc]
      rw [hmap]
      symm
      rw [List.filter_eq_self]
      intro x _
      simp [hu]

theorem Manager.ids_foldl_send (unreachable : List String) (typ : MessageType)
    (data : List UInt8) (ids : List String) (m : Manager) :
    ((ids.foldl (Manager.send unreachable typ data) m).registry.map (fun c => c.ID)) =
      (m.registry.map (fun c => c.ID)).filter
        (fun x => !(decide (x ∈ ids) && decide (x ∈ unreachable))) := by
  induction ids generalizing m with
  | nil => simp
  | cons id rest ih =>
    rw [List.foldl_cons, ih, Manager.ids_send, List.filter_filter]
    congr 1
    funext x
    by_cases hx : x = id
    · subst hx
      by_cases hu : x ∈ unreachable <;> simp [hu]
    · by_cases hu : x ∈ unreachable <;> simp [hu, hx]

theorem Manager.ids_Broadcast (unreachable : List String) (m : Manager) (ctx : Context)
    (typ : MessageType) (data : List UInt8) :
    ((Manager.Broadcast unreachable m ctx typ data).2.registry.map (fun c => c.ID)) =
      (m.registry.map (fun c => c.ID)).filter
        (fun x => !(decide (ctx.Err = none) && decide (x ∈ unreachable))) := by
  unfold Manager.Broadcast
  cases hctx : ctx.Err with
  | some e => simp
  | none =>
    simp only [Manager.ids_foldl_send]
    apply List.filter_congr
    intro x hx
    simp [hx]

/-! ## Broadcast of the modelled Manager and the number the handler prints -/

theorem Manager.send_length_of_reachable (unreachable : List String) (typ : MessageType)
    (data : List UInt8) (m : Manager) (id : String) (hid : id ∉ unreachable) :
    (Manager.send unreachable typ data m id).registry.length = m.registry.length := by
  unfold Manager.send
  cases m.Lookup id with
  | none => rfl
  | some c => simp [hid]

theorem Manager.foldl_send_length (unreachable : List String) (typ : MessageType)
    (data : List UInt8) (ids : List String) (hids : ∀ id ∈ ids, id ∉ unreachable) (m : Manager) :
    (ids.foldl (Manager.send unreachable typ data) m).registry.length = m.registry.length := by
  induction ids generalizing m with
  | nil => rfl
  | cons id rest ih =>
    rw [List.foldl_cons, ih (fun i hi => hids i (List.mem_cons_of_mem _ hi))]
    exact Manager.send_length_of_reachable unreachable typ data m id
      (hids id (List.mem_cons_self _ _))

theorem Manager.Broadcast_count_of_reachable (unreachable : List String) (m : Manager)
    (ctx : Context) (typ : MessageType) (data : List UInt8)
    (hall : ∀ c ∈ m.registry, c.ID ∉ unreachable) :
    (Manager.Broadcast unreachable m ctx typ data).2.Count = m.Count := by
  unfold Manager.Broadcast
  cases ctx.Err with
  | some e => rfl
  | none =>
    simp only [Manager.Count]
    rw [Manager.foldl_send_length]
    intro id hid
    obtain ⟨c, hc, rfl⟩ := List.mem_map.1 hid
    exact hall c hc

theorem Manager.Broadcast_count_iff (unreachable : List String) (m : Manager)
    (ctx : Context) (typ : MessageType) (data : List UInt8) (hctx : ctx.Err = none) :
    ((Manager.Broadcast unreachable m ctx typ data).2.Count = m.Count ↔
      ∀ c ∈ m.registry, c.ID ∉ unreachable) ∧
    ((∃ c ∈ m.registry, c.ID ∈ unreachable) →
      (Manager.Broadcast unreachable m ctx typ data).2.Count < m.Count) := by
  have hlen : (Manager.Broadcast unreachable m ctx typ data).2.registry.length =
      ((m.registry.map (fun c => c.ID)).filter (fun x => !decide (x ∈ unreachable))).length := by
    have h := congrArg List.length (Manager.ids_Broadcast unreachable m ctx typ data)
    rw [List.length_map] at h
    rw [h]
    congr 1
    apply List.filter_congr
    intro x _
    simp [hctx]
  have hbase : (m.registry.map (fun c => c.ID)).length = m.registry.length :=
    List.length_map _ _
  constructor
  · simp only [Manager.Count, Nat.cast_inj]
    rw [hlen, ← hbase, List.filter_length_eq_length]
    constructor
    · intro h c hc
      have := h c.ID (List.mem_map.2 ⟨c, hc, rfl⟩)
      simpa using this
    · intro h x hx
      obtain ⟨c, hc, rfl⟩ := List.mem_map.1 hx
      simpa using h c hc
  · rintro ⟨c, hc, hcu⟩
    simp only [Manager.Count, Nat.cast_lt]
    rw [hlen, ← hbase, List.length_filter_lt_length_iff_exists]
    exact ⟨c.ID, List.mem_map.2 ⟨c, hc, rfl⟩, by simpa using hcu⟩

/-- Claim C8, as the code has it.  When `msg` is non-empty and `Manager.Broadcast` returns
nil, the `/broadcast` handler appends to the body exactly `Broadcast to N connections` and a
newline, where N is what `Manager.Count` returns on the Manager state that `Broadcast` left
behind.  On the modelled Manager with a context that is not cancelled: when no registered
connection is unreachable the line carries the number of connections registered when
`Broadcast` was called; the N that is printed equals that number if and only if no
registered connection is unreachable; and when some registered connection is unreachable,
N is strictly smaller, because `Broadcast` has removed the connections whose send failed. -/
theorem broadcastHandler_success {σ : Type} (api : ManagerAPI σ) (r : Request) (s : World σ)
    (unreachable : List String) (ms : World Manager)
    (hmsg : Values.Get r.Query "msg" ≠ "") :
    ((api.Broadcast s.mgr r.Ctx MessageType.MessageText
        (bytes (Values.Get r.Query "msg"))).1 = none →
      (broadcastHandler api r s).w.body = s.w.body ++
        ("Broadcast to " ++ toString (api.Count (api.Broadcast s.mgr r.Ctx
          MessageType.MessageText (bytes (Values.Get r.Query "msg"))).2) ++ " connections\n")) ∧
    (r.Ctx.Err = none → (∀ c ∈ ms.mgr.registry, c.ID ∉ unreachable) →
      (broadcastHandler (specManager unreachable) r ms).w.body = ms.w.body ++
        ("Broadcast to " ++ toString ms.mgr.Count ++ " connections\n")) ∧
    (r.Ctx.Err = none →
      (broadcastHandler (specManager unreachable) r ms).w.body = ms.w.body ++
        ("Broadcast to " ++ toString ((specManager unreachable).Count
          ((specManager unreachable).Broadcast ms.mgr r.Ctx MessageType.MessageText
            (bytes (Values.Get r.Query "msg"))).2) ++ " connections\n") ∧
      ((specManager unreachable).Count
          ((specManager unreachable).Broadcast ms.mgr r.Ctx MessageType.MessageText
            (bytes (Values.Get r.Query "msg"))).2 = ms.mgr.Count ↔
        ∀ c ∈ ms.mgr.registry, c.ID ∉ unreachable) ∧
      ((∃ c ∈ ms.mgr.registry, c.ID ∈ unreachable) →
        (specManager unreachable).Count
          ((specManager unreachable).Broadcast ms.mgr r.Ctx MessageType.MessageText
            (bytes (Values.Get r.Query "msg"))).2 < ms.mgr.Count)) := by
  have key : ∀ {τ : Type} (a : ManagerAPI τ) (t : World τ),
      (a.Broadcast t.mgr r.Ctx MessageType.MessageText
        (bytes (Values.Get r.Query "msg"))).1 = none →
      (broadcastHandler a r t).w.body = t.w.body ++
        ("Broadcast to " ++ toString (a.Count (a.Broadcast t.mgr r.Ctx
          MessageType.MessageText (bytes (Values.Get r.Query "msg"))).2) ++ " connections\n") := by
    intro τ a t hres
    have hrun : (broadcastHandler a r t).w =
        t.w.Write ("Broadcast to " ++ toString (a.Count
          (a.Broadcast t.mgr r.Ctx MessageType.MessageText
            (bytes (Values.Get r.Query "msg"))).2) ++ " connections\n") := by
      simp only [broadcastHandler, if_neg hmsg, hres]
    rw [hrun, ResponseWriter.Write_body]
  have hnil : r.Ctx.Err = none →
      ((specManager unreachable).Broadcast ms.mgr r.Ctx MessageType.MessageText
        (bytes (Values.Get r.Query "msg"))).1 = none := by
    intro hctx
    simp [specManager, Manager.Broadcast, hctx]
  refine ⟨key api s, ?_, ?_⟩
  · intro hctx hall
    rw [key (specManager unreachable) ms (hnil hctx)]
    have hcount := Manager.Broadcast_count_of_reachable unreachable ms.mgr r.Ctx
      MessageType.MessageText (bytes (Values.Get r.Query "msg")) hall
    simp only [specManager] at hcount ⊢
    rw [hcount]
  · intro hctx
    have hiff := Manager.Broadcast_count_iff unreachable ms.mgr r.Ctx
      MessageType.MessageText (bytes (Values.Get r.Query "msg")) hctx
    exact ⟨key (specManager unreachable) ms (hnil hctx), hiff.1, hiff.2⟩

theorem broadcastHandler_success_witness :
    (broadcastHandler (specManager ["z"]) helloRequest threeWorld).w.body = threeWorld.w.body ++
        ("Broadcast to " ++ toString ((specManager ["z"]).Count ((specManager ["z"]).Broadcast
          threeWorld.mgr helloRequest.Ctx MessageType.MessageText
          (bytes (Values.Get helloRequest.Query "msg"))).2) ++ " connections\n") ∧
    (broadcastHandler (specManager ["z"]) helloRequest threeWorld).w.body = threeWorld.w.body ++
        ("Broadcast to " ++ toString threeWorld.mgr.Count ++ " connections\n") ∧
    ((specManager ["b"]).Count ((specManager ["b"]).Broadcast threeWorld.mgr helloRequest.Ctx
        MessageType.MessageText (bytes (Values.Get helloRequest.Query "msg"))).2
      = threeWorld.mgr.Count ↔ ∀ c ∈ threeWorld.mgr.registry, c.ID ∉ ["b"]) ∧
    (specManager ["b"]).Count ((specManager ["b"]).Broadcast threeWorld.mgr helloRequest.Ctx
        MessageType.MessageText (bytes (Values.Get helloRequest.Query "msg"))).2
      < threeWorld.mgr.Count :=
  ⟨(broadcastHandler_success (specManager ["z"]) helloRequest threeWorld ["z"] threeWorld
      (by decide)).1 (by decide),
   (broadcastHandler_success (specManager ["z"]) helloRequest threeWorld ["z"] threeWorld
      (by decide)).2.1 (by rfl) (by decide),
   ((broadcastHandler_success (specManager ["b"]) helloRequest threeWorld ["b"] threeWorld
      (by decide)).2.2 (by rfl)).2.1,
   ((broadcastHandler_success (specManager ["b"]) helloRequest threeWorld ["b"] threeWorld
      (by decide)).2.2 (by rfl)).2.2 ⟨⟨"b", [], Lifecycle.Open, []⟩, by decide, by decide⟩⟩

/-- Claim C8, as stated, fails.  With `a`, `b` and `c` registered and the stream of `b`
unreachable, `Broadcast` returns nil for `msg=hello` after sending to a snapshot of three
registered connections, and the handler answers `Broadcast to 2 connections`, not 3. -/
theorem broadcastHandler_count_counterexample :
    Values.Get helloRequest.Query "msg" ≠ "" ∧
    ((specManager ["b"]).Broadcast threeWorld.mgr helloRequest.Ctx MessageType.MessageText
      (bytes (Values.Get helloRequest.Query "msg"))).1 = none ∧
    threeWorld.mgr.Count = 3 ∧
    (broadcastHandler (specManager ["b"]) helloRequest threeWorld).w.body
      = "Broadcast to 2 connections\n" ∧
    (broadcastHandler (specManager ["b"]) helloRequest threeWorld).w.body
      ≠ "Broadcast to " ++ toString threeWorld.mgr.Count ++ " connections\n" := by
  decide

theorem Manager.consistent_Register (m : Manager) (id : String) (hm : m.consistent) :
    (m.Register (Conn.new id)).2.consistent := by
  unfold Manager.Register
  split_ifs
  · exact hm
  · refine ⟨?_, hm.2⟩
    intro c hc
    rcases List.mem_append.1 hc with h | h
    · exact hm.1 c h
    · simp only [List.mem_singleton] at h
      rw [h]

theorem Manager.consistent_Deregister (m : Manager) (id : String) (hm : m.consistent) :
    (m.Deregister id).2.consistent := by
  refine ⟨?_, ?_⟩
  · intro c hc
    exact hm.1 c (List.mem_filter.1 hc).1
  · intro c hc
    rcases List.mem_append.1 hc with h | h
    · exact hm.2 c h
    · obtain ⟨d, _, rfl⟩ := List.mem_map.1 h
      rfl

theorem Manager.consistent_send (unreachable : List String) (typ : MessageType)
    (data : List UInt8) (m : Manager) (id : String) (hm : m.consistent) :
    (Manager.send unreachable typ data m id).consistent := by
  unfold Manager.send
  cases m.Lookup id with
  | none => exact hm
  | some c =>
    by_cases hu : id ∈ unreachable
    · simp only [if_pos hu]
      exact Manager.consistent_Deregister _ id ⟨hm.1, hm.2⟩
    · simp only [if_neg hu]
      refine ⟨?_, hm.2⟩
      intro d hd
      obtain ⟨e, he, rfl⟩ := List.mem_map.1 hd
      by_cases hid : e.ID = id
      · simp only [if_pos hid]
        exact hm.1 e he
      · simp only [if_neg hid]
        exact hm.1 e he

theorem Manager.consistent_foldl_send (unreachable : List String) (typ : MessageType)
    (data : List UInt8) (ids : List String) (m : Manager) (hm : m.consistent) :
    (ids.foldl (Manager.send unreachable typ data) m).consistent := by
  induction ids generalizing m with
  | nil => exact hm
  | cons id rest ih =>
    rw [List.foldl_cons]
    exact ih _ (Manager.consistent_send unreachable typ data m id hm)

theorem Manager.consistent_apply (m : Manager) (o : Op) (hm : m.consistent) :
    (m.apply o).consistent := by
  cases o with
  | Register id => exact Manager.consistent_Register m id hm
  | Deregister id => exact Manager.consistent_Deregister m id hm
  | Broadcast ctx typ data unreachable =>
    simp only [Manager.apply, Manager.Broadcast]
    cases ctx.Err with
    | some e => exact hm
    | none => exact Manager.consistent_foldl_send unreachable typ data _ m hm

theorem Manager.nodup_apply (m : Manager) (o : Op)
    (hm : (m.registry.map (fun c => c.ID)).Nodup) :
    ((m.apply o).registry.map (fun c => c.ID)).Nodup := by
  cases o with
  | Register id =>
    simp only [Manager.apply]
    rw [Manager.ids_Register]
    split_ifs with h
    · exact hm
    · exact List.Nodup.append hm (List.nodup_singleton id) (by
        intro x hx hx2
        simp only [List.mem_singleton] at hx2
        exact h (hx2 ▸ hx))
  | Deregister id =>
    simp only [Manager.apply]
    rw [Manager.ids_Deregister]
    exact hm.filter _
  | Broadcast ctx typ data unreachable =>
    simp only [Manager.apply]
    rw [Manager.ids_Broadcast]
    exact hm.filter _

theorem Manager.run_append (ops : List Op) (o : Op) :
    Manager.run (ops ++ [o]) = (Manager.run ops).apply o := by
  simp [Manager.run, List.foldl_append]

theorem Manager.run_consistent (ops : List Op) : (Manager.run ops).consistent := by
  induction ops using List.reverseRecOn with
  | nil => exact ⟨by simp [Manager.run, Manager.empty], by simp [Manager.run, Manager.empty]⟩
  | append_singleton ops o ih =>
    rw [Manager.run_append]
    exact Manager.consistent_apply _ o ih

theorem Manager.run_nodup (ops : List Op) :
    ((Manager.run ops).registry.map (fun c => c.ID)).Nodup := by
  induction ops using List.reverseRecOn with
  | nil => simp [Manager.run, Manager.empty]
  | append_singleton ops o ih =>
    rw [Manager.run_append]
    exact Manager.nodup_apply _ o ih

theorem Manager.mem_ids_apply (m : Manager) (o : Op) (x : String) :
    x ∈ (m.apply o).registry.map (fun c => c.ID) ↔
      (o.registers x = true ∨
        (o.removes x = false ∧ x ∈ m.registry.map (fun c => c.ID))) := by
  cases o with
  | Register id =>
    simp only [Manager.apply]
    rw [Manager.ids_Register]
    by_cases hx : id = x
    · subst hx
      split_ifs with h <;> simp [Op.registers, Op.removes, h]
    · have hx2 : ¬ x = id := fun h => hx h.symm
      split_ifs with h <;> simp [Op.registers, Op.removes, hx, hx2]
  | Deregister id =>
    simp only [Manager.apply]
    rw [Manager.ids_Deregister]
    by_cases hx : id = x
    · subst hx
      simp [Op.registers, Op.removes]
    · have hx2 : ¬ x = id := fun h => hx h.symm
      simp [Op.registers, Op.removes, hx, hx2]
  | Broadcast ctx typ data unreachable =>
    simp only [Manager.apply]
    rw [Manager.ids_Broadcast, List.mem_filter]
    simp only [Op.registers, Op.removes]
    constructor
    · rintro ⟨hmem, hkeep⟩
      right
      refine ⟨?_, hmem⟩
      by_cases h1 : ctx.Err = none <;> by_cases h2 : x ∈ unreachable <;>
        simp_all
    · rintro (h | ⟨hkeep, hmem⟩)
      · exact absurd h (by simp)
      · refine ⟨hmem, ?_⟩
        by_cases h1 : ctx.Err = none <;> by_cases h2 : x ∈ unreachable <;>
          simp_all

theorem registeredSince_cons (x : String) (o : Op) (older : List Op) :
    registeredSince x (o :: older) = true ↔
      (o.registers x = true ∨ (o.removes x = false ∧ registeredSince x older = true)) := by
  have hexcl : o.registers x = true → o.removes x = false := by
    cases o <;> simp [Op.registers, Op.removes]
  simp only [registeredSince]
  by_cases hr : o.registers x = true
  · simp [hr]
  · by_cases hd : o.removes x = true
    · simp [hr, hd]
    · simp [hr, hd]

theorem Manager.mem_ids_run (ops : List Op) (x : String) :
    x ∈ (Manager.run ops).registry.map (fun c => c.ID) ↔
      registeredSince x ops.reverse = true := by
  induction ops using List.reverseRecOn with
  | nil => simp [Manager.run, Manager.empty, registeredSince]
  | append_singleton ops o ih =>
    rw [Manager.run_append, Manager.mem_ids_apply, List.reverse_append, List.reverse_singleton,
      List.singleton_append, registeredSince_cons, ih]

theorem registeredSince_mem (x : String) (l : List Op) (h : registeredSince x l = true) :
    x ∈ l.filterMap Op.registered? := by
  induction l with
  | nil => simp [registeredSince] at h
  | cons o older ih =>
    rw [registeredSince_cons] at h
    rcases h with h | ⟨_, h⟩
    · cases o with
      | Register id =>
        have hid : id = x := by simpa [Op.registers] using h
        simp [Op.registered?, hid]
      | Deregister id => simp [Op.registers] at h
      | Broadcast ctx typ data unreachable => simp [Op.registers] at h
    · have := ih h
      rw [List.filterMap_cons]
      cases Op.registered? o with
      | none => exact this
      | some i => exact List.mem_cons_of_mem _ this

theorem Manager.ids_perm_liveIDs (ops : List Op) :
    ((Manager.run ops).registry.map (fun c => c.ID)).Perm (liveIDs ops) := by
  unfold liveIDs
  rw [List.perm_ext_iff_of_nodup (Manager.run_nodup ops)
    ((List.nodup_dedup _).filter _)]
  intro x
  rw [Manager.mem_ids_run, List.mem_filter, List.mem_dedup]
  constructor
  · intro h
    refine ⟨?_, by simpa using h⟩
    have := registeredSince_mem x ops.reverse h
    rw [List.filterMap_reverse] at this
    exact List.mem_reverse.1 this
  · rintro ⟨_, h⟩
    simpa using h

theorem Manager.openCount_eq (m : Manager) (hm : m.consistent) :
    m.openCount = m.registry.length := by
  unfold Manager.openCount
  rw [List.filter_append]
  have h1 : m.registry.filter (fun c => c.state = Lifecycle.Open) = m.registry := by
    rw [List.filter_eq_self]
    intro c hc
    simp [hm.1 c hc]
  have h2 : m.closed.filter (fun c => c.state = Lifecycle.Open) = [] := by
    rw [List.filter_eq_nil_iff]
    intro c hc
    simp [hm.2 c hc]
  rw [h1, h2, List.append_nil]

/-- Claim C2.  On the modelled Manager, after any finite sequence of registrations,
deregistrations and broadcasts applied to an empty Manager: `Count()` equals the number of
connections whose lifecycle state is Open, and equals the number of distinct IDs registered
and not since removed (deregistered, or dropped by a broadcast whose send to them failed);
no ID is registered twice; a connection is in the registry if and only if it is Open; and
the `/stats` handler writes `Active connections: N` with that number. -/
theorem Count_eq_open (ops : List Op) :
    (Manager.run ops).Count = ((Manager.run ops).openCount : Int) ∧
    (Manager.run ops).Count = ((liveIDs ops).length : Int) ∧
    ((Manager.run ops).registry.map (fun c => c.ID)).Nodup ∧
    (∀ c ∈ (Manager.run ops).registry ++ (Manager.run ops).closed,
      c ∈ (Manager.run ops).registry ↔ c.state = Lifecycle.Open) ∧
    (∀ (unreachable : List String) (r : Request) (w : ResponseWriter) (trace : List Effect),
      (statsHandler (specManager unreachable) r ⟨w, Manager.run ops, trace⟩).w =
        w.Write ("Active connections: " ++ toString ((liveIDs ops).length : Int) ++ "\n")) := by
  have hcons := Manager.run_consistent ops
  have hlen : (Manager.run ops).registry.length = (liveIDs ops).length := by
    have := (Manager.ids_perm_liveIDs ops).length_eq
    simpa using this
  have hcount : (Manager.run ops).Count = ((liveIDs ops).length : Int) := by
    simp only [Manager.Count, hlen]
  refine ⟨?_, hcount, Manager.run_nodup ops, ?_, ?_⟩
  · rw [Manager.openCount_eq _ hcons]
    rfl
  · intro c hc
    constructor
    · intro hreg
      exact hcons.1 c hreg
    · intro hopen
      rcases List.mem_append.1 hc with h | h
      · exact h
      · have := hcons.2 c h
        rw [hopen] at this
        exact absurd this (by decide)
  · intro unreachable r w trace
    simp only [statsHandler, specManager]
    rw [hcount]

theorem Count_eq_open_witness :
    (⟨"c", [], Lifecycle.Open, []⟩ ∈
        (Manager.run [Op.Register "a", Op.Register "b", Op.Register "a", Op.Deregister "a",
          Op.Broadcast ⟨none⟩ MessageType.MessageText [104, 105] ["b"], Op.Register "c"]).registry ↔
      (⟨"c", [], Lifecycle.Open, []⟩ : Conn).state = Lifecycle.Open) ∧
    (Manager.run [Op.Register "a", Op.Register "b", Op.Register "a", Op.Deregister "a",
      Op.Broadcast ⟨none⟩ MessageType.MessageText [104, 105] ["b"], Op.Register "c"]).Count = 1 :=
  ⟨(Count_eq_open [Op.Register "a", Op.Register "b", Op.Register "a", Op.Deregister "a",
      Op.Broadcast ⟨none⟩ MessageType.MessageText [104, 105] ["b"], Op.Register "c"]).2.2.2.1
      ⟨"c", [], Lifecycle.Open, []⟩ (by decide),
   (Count_eq_open [Op.Register "a", Op.Register "b", Op.Register "a", Op.Deregister "a",
      Op.Broadcast ⟨none⟩ MessageType.MessageText [104, 105] ["b"], Op.Register "c"]).2.1.trans
      (by decide)⟩

/-! ## The heartbeat state machine -/

theorem Monitored.run_events_append (cfg : HeartbeatConfig) (s : Monitored)
    (l1 l2 : List MonitorEvent) :
    Monitored.run cfg s (l1 ++ l2) = Monitored.run cfg (Monitored.run cfg s l1) l2 := by
  simp [Monitored.run, List.foldl_append]

theorem Monitored.shape_step (cfg : HeartbeatConfig) (s : Monitored) (ev : MonitorEvent)
    (hs : s.shape) : (Monitored.step cfg s ev).shape := by
  obtain ⟨state, monitor, missed, registered, disconnects⟩ := s
  rcases hs with ⟨h1, h2, h3, h4⟩ | ⟨h1, h2, h3, h4⟩ | ⟨h1, h2 | h2, h3, h4⟩ <;>
    simp only at h1 h2 h3 h4 <;> subst h1 h2 h3 h4 <;> cases ev with
    | Start => simp [Monitored.step, Monitored.shape, Monitored.live]
    | Close => simp [Monitored.step, Monitored.shape, Monitored.live, Monitored.close]
    | Tick pong =>
      cases pong <;> simp only [Monitored.step] <;> try split_ifs
      all_goals simp [Monitored.shape, Monitored.live, Monitored.close]

theorem Monitored.shape_run (cfg : HeartbeatConfig) (events : List MonitorEvent)
    (s : Monitored) (hs : s.shape) : (Monitored.run cfg s events).shape := by
  induction events generalizing s with
  | nil => exact hs
  | cons ev rest ih => exact ih _ (Monitored.shape_step cfg s ev hs)

theorem Monitored.shape_init : Monitored.init.shape :=
  Or.inl ⟨rfl, rfl, rfl, rfl⟩

theorem Monitored.live_of_active (s : Monitored) (hs : s.shape)
    (hactive : s.monitor = MonitorState.Active) : s.live := by
  rcases hs with ⟨_, h, _, _⟩ | h | ⟨_, h | h, _, _⟩
  · rw [h] at hactive; exact absurd hactive (by decide)
  · exact h
  · rw [h] at hactive; exact absurd hactive (by decide)
  · rw [h] at hactive; exact absurd hactive (by decide)

theorem Monitored.misses_below (cfg : HeartbeatConfig) (k : Nat) (s : Monitored)
    (hlive : s.live) (hk : s.missed + k < cfg.MaxMissed) :
    Monitored.run cfg s (List.replicate k (MonitorEvent.Tick false))
      = { s with missed := s.missed + k } := by
  induction k generalizing s with
  | zero => rfl
  | succ k ih =>
    have hstep : Monitored.step cfg s (MonitorEvent.Tick false)
        = { s with missed := s.missed + 1 } := by
      have : ¬ cfg.MaxMissed ≤ s.missed + 1 := by omega
      simp [Monitored.step, hlive.2.1, this]
    rw [List.replicate_succ, Monitored.run, List.foldl_cons, hstep]
    have := ih { s with missed := s.missed + 1 } hlive (by simp only; omega)
    rw [Monitored.run] at this
    rw [this]
    simp only [Nat.add_assoc, Nat.add_comm 1 k]

theorem Monitored.misses_reach (cfg : HeartbeatConfig) (hmax : 1 ≤ cfg.MaxMissed)
    (s : Monitored) (hlive : s.live) (hzero : s.missed = 0) :
    Monitored.run cfg s (List.replicate cfg.MaxMissed (MonitorEvent.Tick false))
      = { s with missed := cfg.MaxMissed, monitor := MonitorState.Failed,
                 state := Lifecycle.Closed, registered := false, disconnects := 1 } := by
  obtain ⟨n, hn⟩ : ∃ n, cfg.MaxMissed = n + 1 := ⟨cfg.MaxMissed - 1, by omega⟩
  rw [hn, List.replicate_succ', Monitored.run_events_append,
    Monitored.misses_below cfg n s hlive (by omega)]
  obtain ⟨h1, h2, h3, h4⟩ := hlive
  simp [Monitored.run, Monitored.step, Monitored.close, h1, h2, h4, hzero, hn]

theorem missStreak_ge (l : List Bool) (cur best : Nat) : best ≤ missStreak cur best l := by
  induction l generalizing cur best with
  | nil => exact Nat.le_refl _
  | cons b rest ih =>
    cases b with
    | true => exact ih 0 best
    | false => exact Nat.le_trans (Nat.le_max_left _ _) (ih (cur + 1) (max best (cur + 1)))

theorem Monitored.live_of_short_streaks (cfg : HeartbeatConfig) (pongs : List Bool)
    (s : Monitored) (best : Nat) (hlive : s.live)
    (hshort : missStreak s.missed best pongs < cfg.MaxMissed) :
    (Monitored.run cfg s (pongs.map MonitorEvent.Tick)).live := by
  induction pongs generalizing s best with
  | nil => exact hlive
  | cons b rest ih =>
    cases b with
    | true =>
      have hstep : Monitored.step cfg s (MonitorEvent.Tick true) = { s with missed := 0 } := by
        simp [Monitored.step, hlive.2.1]
      rw [List.map_cons, Monitored.run, List.foldl_cons, hstep]
      exact ih { s with missed := 0 } best hlive hshort
    | false =>
      have hge := missStreak_ge rest (s.missed + 1) (max best (s.missed + 1))
      have hlt : ¬ cfg.MaxMissed ≤ s.missed + 1 := by
        simp only [missStreak] at hshort
        have := Nat.le_max_right best (s.missed + 1)
        omega
      have hstep : Monitored.step cfg s (MonitorEvent.Tick false)
          = { s with missed := s.missed + 1 } := by
        simp [Monitored.step, hlive.2.1, hlt]
      rw [List.map_cons, Monitored.run, List.foldl_cons, hstep]
      exact ih { s with missed := s.missed + 1 } (max best (s.missed + 1)) hlive hshort

/-- Claim C3.  On the modelled heartbeat state machine with `MaxMissed ≥ 1`: whenever a run
from a new connection has reached an Active monitor with missed-counter 0, `MaxMissed`
consecutive missed pongs leave the monitor Failed, the connection deregistered and Closed,
and `OnDisconnect` fired exactly once, while fewer misses leave it live; no run fires
`OnDisconnect` more than once; a tick with an observed pong resets the counter of an Active
monitor to 0; and ticks whose longest streak of misses stays below `MaxMissed` leave the
connection live (Open, registered, monitored, `OnDisconnect` not fired). -/
theorem heartbeat_forced_close (cfg : HeartbeatConfig) (hmax : 1 ≤ cfg.MaxMissed)
    (history events : List MonitorEvent) (pongs : List Bool) :
    ((Monitored.run cfg Monitored.init history).monitor = MonitorState.Active →
      (Monitored.run cfg Monitored.init history).missed = 0 →
      (Monitored.run cfg Monitored.init
          (history ++ List.replicate cfg.MaxMissed (MonitorEvent.Tick false))).monitor
        = MonitorState.Failed ∧
      (Monitored.run cfg Monitored.init
          (history ++ List.replicate cfg.MaxMissed (MonitorEvent.Tick false))).registered
        = false ∧
      (Monitored.run cfg Monitored.init
          (history ++ List.replicate cfg.MaxMissed (MonitorEvent.Tick false))).state
        = Lifecycle.Closed ∧
      (Monitored.run cfg Monitored.init
          (history ++ List.replicate cfg.MaxMissed (MonitorEvent.Tick false))).disconnects
        = 1 ∧
      ∀ k, k < cfg.MaxMissed →
        (Monitored.run cfg Monitored.init
          (history ++ List.replicate k (MonitorEvent.Tick false))).live) ∧
    (Monitored.run cfg Monitored.init events).disconnects ≤ 1 ∧
    ((Monitored.run cfg Monitored.init history).monitor = MonitorState.Active →
      (Monitored.step cfg (Monitored.run cfg Monitored.init history)
        (MonitorEvent.Tick true)).missed = 0 ∧
      (Monitored.step cfg (Monitored.run cfg Monitored.init history)
        (MonitorEvent.Tick true)).live) ∧
    (missStreak 0 0 pongs < cfg.MaxMissed →
      (Monitored.run cfg Monitored.init
        (MonitorEvent.Start :: pongs.map MonitorEvent.Tick)).live) := by
  have hshape : ∀ l, (Monitored.run cfg Monitored.init l).shape :=
    fun l => Monitored.shape_run cfg l _ Monitored.shape_init
  refine ⟨?_, ?_, ?_, ?_⟩
  · intro hactive hzero
    have hlive := Monitored.live_of_active _ (hshape history) hactive
    rw [Monitored.run_events_append, Monitored.misses_reach cfg hmax _ hlive hzero]
    refine ⟨rfl, rfl, rfl, rfl, ?_⟩
    intro k hk
    rw [Monitored.run_events_append, Monitored.misses_below cfg k _ hlive (by omega)]
    exact hlive
  · rcases hshape events with ⟨_, _, _, h⟩ | ⟨_, _, _, h⟩ | ⟨_, _, _, h⟩ <;> omega
  · intro hactive
    have hlive := Monitored.live_of_active _ (hshape history) hactive
    have hstep : Monitored.step cfg (Monitored.run cfg Monitored.init history)
        (MonitorEvent.Tick true)
        = { Monitored.run cfg Monitored.init history with missed := 0 } := by
      simp [Monitored.step, hactive]
    rw [hstep]
    exact ⟨rfl, hlive⟩
  · intro hshort
    have hstart : Monitored.run cfg Monitored.init
        (MonitorEvent.Start :: pongs.map MonitorEvent.Tick)
        = Monitored.run cfg ⟨Lifecycle.Open, MonitorState.Active, 0, true, 0⟩
            (pongs.map MonitorEvent.Tick) := by
      simp [Monitored.run, Monitored.step, Monitored.init]
    rw [hstart]
    exact Monitored.live_of_short_streaks cfg pongs _ 0 ⟨rfl, rfl, rfl, rfl⟩ hshort

theorem heartbeat_forced_close_witness :
    ((Monitored.run exampleHeartbeatConfig Monitored.init
        ([MonitorEvent.Start, MonitorEvent.Tick false, MonitorEvent.Tick false,
          MonitorEvent.Tick true] ++
          List.replicate exampleHeartbeatConfig.MaxMissed (MonitorEvent.Tick false))).monitor
        = MonitorState.Failed ∧
      (Monitored.run exampleHeartbeatConfig Monitored.init
        ([MonitorEvent.Start, MonitorEvent.Tick false, MonitorEvent.Tick false,
          MonitorEvent.Tick true] ++
          List.replicate exampleHeartbeatConfig.MaxMissed (MonitorEvent.Tick false))).disconnects
        = 1) ∧
    (Monitored.step exampleHeartbeatConfig (Monitored.run exampleHeartbeatConfig Monitored.init
        [MonitorEvent.Start, MonitorEvent.Tick false, MonitorEvent.Tick false,
          MonitorEvent.Tick true]) (MonitorEvent.Tick true)).missed = 0 ∧
    (Monitored.run exampleHeartbeatConfig Monitored.init
      (MonitorEvent.Start ::
        [false, false, true, false, true, false, false].map MonitorEvent.Tick)).live :=
  ⟨⟨((heartbeat_forced_close exampleHeartbeatConfig (by decide)
        [MonitorEvent.Start, MonitorEvent.Tick false, MonitorEvent.Tick false,
          MonitorEvent.Tick true] [] [false, false, true, false, true, false, false]).1
        (by decide) (by decide)).1,
      ((heartbeat_forced_close exampleHeartbeatConfig (by decide)
        [MonitorEvent.Start, MonitorEvent.Tick false, MonitorEvent.Tick false,
          MonitorEvent.Tick true] [] [false, false, true, false, true, false, false]).1
        (by decide) (by decide)).2.2.2.1⟩,
   ((heartbeat_forced_close exampleHeartbeatConfig (by decide)
      [MonitorEvent.Start, MonitorEvent.Tick false, MonitorEvent.Tick false,
        MonitorEvent.Tick true] [] [false, false, true, false, true, false, false]).2.2.1
      (by decide)).1,
   (heartbeat_forced_close exampleHeartbeatConfig (by decide)
      [MonitorEvent.Start, MonitorEvent.Tick false, MonitorEvent.Tick false,
        MonitorEvent.Tick true] [] [false, false, true, false, true, false, false]).2.2.2
      (by decide)⟩

end Wrapsocket
